import Mathlib

/-!
Verification of the fileio multi-node object storage gateway (rust-b service).

The service's handlers (src/main.rs, src/handlers.rs), its redis helpers
(src/redis.rs) and its auth middleware (src/auth.rs) are shallowly embedded
below.  The local filesystem is modelled as an explicit `FS` value, the shared
redis instance (location directory + node registry) as a `Redis` value, and
each axum handler as a pure function from the request and the current state to
a response together with the successor state.  Non-deterministic effects of
the real system (the millisecond timestamp, the random u32, and the success of
individual filesystem syscalls) enter as explicit oracle arguments.
-/

set_option maxRecDepth 4096

namespace Fileio

/-! ### Decimal representation lemmas

`upload_file` generates object keys with
`format!("{}-{}-{}", timestamp_millis, rand_u32, original_name)`; the
distinctness of keys rests on `Nat.repr` being injective and containing no
hyphen character.  Lean's `Nat.repr` is `(Nat.toDigits 10 n).asString`, with
`Nat.toDigits` a fuel-based loop; we prove the needed facts here. -/

theorem toDigitsCore_zero (b n : Nat) (acc : List Char) :
    Nat.toDigitsCore b 0 n acc = acc := rfl

theorem toDigitsCore_succ (b fuel n : Nat) (acc : List Char) :
    Nat.toDigitsCore b (fuel + 1) n acc =
      if n / b = 0 then Nat.digitChar (n % b) :: acc
      else Nat.toDigitsCore b fuel (n / b) (Nat.digitChar (n % b) :: acc) := rfl

theorem toDigitsCore_append (b : Nat) :
    ∀ (fuel n : Nat) (acc : List Char),
      Nat.toDigitsCore b fuel n acc = Nat.toDigitsCore b fuel n [] ++ acc := by
  intro fuel
  induction fuel with
  | zero => intro n acc; simp [toDigitsCore_zero]
  | succ fuel ih =>
    intro n acc
    rw [toDigitsCore_succ, toDigitsCore_succ]
    by_cases h : n / b = 0
    · simp [h]
    · simp only [h, if_false]
      rw [ih (n / b) (Nat.digitChar (n % b) :: acc),
        ih (n / b) (Nat.digitChar (n % b) :: [])]
      simp

theorem toDigitsCore_fuel_irrel (b : Nat) (hb : 2 ≤ b) :
    ∀ (fuel fuel' n : Nat) (acc : List Char), n < fuel → n < fuel' →
      Nat.toDigitsCore b fuel n acc = Nat.toDigitsCore b fuel' n acc := by
  intro fuel
  induction fuel with
  | zero => intro fuel' n acc h _; omega
  | succ fuel ih =>
    intro fuel' n acc h h'
    cases fuel' with
    | zero => omega
    | succ fuel' =>
      rw [toDigitsCore_succ, toDigitsCore_succ]
      by_cases hz : n / b = 0
      · simp [hz]
      · simp only [hz, if_false]
        have hnpos : 0 < n := by
          rcases Nat.eq_zero_or_pos n with h0 | h0
          · exact absurd (by simp [h0]) hz
          · exact h0
        have hdiv : n / b < n := Nat.div_lt_self hnpos (by omega)
        exact ih fuel' (n / b) (Nat.digitChar (n % b) :: acc) (by omega) (by omega)

theorem toDigits_eq_singleton (n : Nat) (h : n < 10) :
    Nat.toDigits 10 n = [Nat.digitChar n] := by
  show Nat.toDigitsCore 10 (n + 1) n [] = [Nat.digitChar n]
  rw [toDigitsCore_succ, Nat.div_eq_of_lt h]
  simp [Nat.mod_eq_of_lt h]

theorem toDigits_eq_append (n : Nat) (h : 10 ≤ n) :
    Nat.toDigits 10 n = Nat.toDigits 10 (n / 10) ++ [Nat.digitChar (n % 10)] := by
  show Nat.toDigitsCore 10 (n + 1) n [] = _
  have hz : n / 10 ≠ 0 := by
    have := Nat.one_le_div_iff (by omega : 0 < 10) |>.mpr h
    omega
  rw [toDigitsCore_succ]
  simp only [hz, if_false]
  rw [toDigitsCore_append 10 n (n / 10) (Nat.digitChar (n % 10) :: [])]
  have hd : n / 10 < n := Nat.div_lt_self (by omega) (by omega)
  rw [toDigitsCore_fuel_irrel 10 (by omega) n (n / 10 + 1) (n / 10) [] hd (by omega)]
  rfl

theorem digitChar_lt_ten_ne_dash : ∀ d, d < 10 → Nat.digitChar d ≠ '-' := by decide

theorem digitChar_lt_ten_inj :
    ∀ a, a < 10 → ∀ b, b < 10 → Nat.digitChar a = Nat.digitChar b → a = b := by decide

theorem toDigits_not_dash (n : Nat) : '-' ∉ Nat.toDigits 10 n := by
  induction n using Nat.strong_induction_on with
  | _ n ih =>
    by_cases h : n < 10
    · rw [toDigits_eq_singleton n h]
      intro hmem
      rcases List.mem_singleton.mp hmem with h
      exact digitChar_lt_ten_ne_dash n ‹n < 10› h.symm
    · rw [toDigits_eq_append n (by omega)]
      intro hmem
      rcases List.mem_append.mp hmem with hmem | hmem
      · exact ih (n / 10) (Nat.div_lt_self (by omega) (by omega)) hmem
      · rcases List.mem_singleton.mp hmem with h
        exact digitChar_lt_ten_ne_dash (n % 10) (Nat.mod_lt n (by omega)) h.symm

theorem toDigits_ne_nil (n : Nat) : Nat.toDigits 10 n ≠ [] := by
  by_cases h : n < 10
  · rw [toDigits_eq_singleton n h]; simp
  · rw [toDigits_eq_append n (by omega)]; simp

theorem toDigits_inj :
    ∀ a b : Nat, Nat.toDigits 10 a = Nat.toDigits 10 b → a = b := by
  intro a
  induction a using Nat.strong_induction_on with
  | _ a ih =>
    intro b hab
    by_cases ha : a < 10 <;> by_cases hb : b < 10
    · rw [toDigits_eq_singleton a ha, toDigits_eq_singleton b hb] at hab
      exact digitChar_lt_ten_inj a ha b hb (List.singleton_inj.mp hab)
    · rw [toDigits_eq_singleton a ha, toDigits_eq_append b (by omega)] at hab
      have hlen := congrArg List.length hab
      have hpos : 0 < (Nat.toDigits 10 (b / 10)).length :=
        List.length_pos.mpr (toDigits_ne_nil (b / 10))
      simp only [List.length_singleton, List.length_append] at hlen
      omega
    · rw [toDigits_eq_append a (by omega), toDigits_eq_singleton b hb] at hab
      have hlen := congrArg List.length hab
      have hpos : 0 < (Nat.toDigits 10 (a / 10)).length :=
        List.length_pos.mpr (toDigits_ne_nil (a / 10))
      simp only [List.length_singleton, List.length_append] at hlen
      omega
    · rw [toDigits_eq_append a (by omega), toDigits_eq_append b (by omega)] at hab
      have hrev := congrArg List.reverse hab
      simp only [List.reverse_append, List.reverse_singleton, List.singleton_append,
        List.cons.injEq] at hrev
      obtain ⟨hmod, htail⟩ := hrev
      have hmod' : a % 10 = b % 10 :=
        digitChar_lt_ten_inj (a % 10) (Nat.mod_lt a (by omega)) (b % 10)
          (Nat.mod_lt b (by omega)) hmod
      have hdiv : a / 10 = b / 10 :=
        ih (a / 10) (Nat.div_lt_self (by omega) (by omega)) (b / 10)
          (List.reverse_injective htail)
      omega

theorem data_asString (l : List Char) : (List.asString l).data = l := rfl

theorem repr_data (n : Nat) : (Nat.repr n).data = Nat.toDigits 10 n := rfl

theorem repr_inj (a b : Nat) (h : Nat.repr a = Nat.repr b) : a = b := by
  apply toDigits_inj
  rw [← repr_data, ← repr_data, h]

theorem repr_not_dash (n : Nat) : '-' ∉ (Nat.repr n).data := by
  rw [repr_data]; exact toDigits_not_dash n

theorem data_append (s t : String) : (s ++ t).data = s.data ++ t.data := by
  cases s; cases t; rfl

theorem append_dash_inj :
    ∀ (l1 l2 r1 r2 : List Char), '-' ∉ l1 → '-' ∉ l2 →
      l1 ++ '-' :: r1 = l2 ++ '-' :: r2 → l1 = l2 ∧ r1 = r2 := by
  intro l1
  induction l1 with
  | nil =>
    intro l2 r1 r2 _ h2 heq
    cases l2 with
    | nil => simpa using heq
    | cons c l2 =>
      simp only [List.nil_append, List.cons_append, List.cons.injEq] at heq
      exact absurd (heq.1 ▸ List.mem_cons_self c l2) h2
  | cons c l1 ih =>
    intro l2 r1 r2 h1 h2 heq
    cases l2 with
    | nil =>
      simp only [List.cons_append, List.nil_append, List.cons.injEq] at heq
      exact absurd (heq.1 ▸ List.mem_cons_self c l1) h1
    | cons d l2 =>
      simp only [List.cons_append, List.cons.injEq] at heq
      have h1tail : '-' ∉ l1 := fun hm => h1 (List.mem_cons_of_mem c hm)
      have h2tail : '-' ∉ l2 := fun hm => h2 (List.mem_cons_of_mem d hm)
      obtain ⟨hl, hr⟩ := ih l2 r1 r2 h1tail h2tail heq.2
      exact ⟨by rw [heq.1, hl], hr⟩

/-! ### Data model

The gateway's state splits into three parts: the per-process configuration
(`AppState`, from src/state.rs), the local filesystem under `root_dir`
(`FS`), and the shared redis instance (`Redis`) holding the location
directory (string keys `"{bucket}:{objectKey}"`) and the node registry
(the redis set `"nodes"`). -/

/-- Configuration of one gateway process: struct `AppState` in src/state.rs
and src/main.rs (fields `root_dir`, `api_key`, `redis_url`, `public_host`). -/
structure AppState where
  root_dir : String
  api_key : Option String
  redis_url : Option String
  public_host : String
deriving Repr

/-- Process-level values read inside handlers: `std::process::id()` and
`port_from_env()` (src/state.rs). -/
structure Env where
  pid : Nat
  port : Nat
deriving Repr

/-- Abstraction of a string stored under a location-directory key, as seen
through the two extraction steps `download_file` performs on it:
`serde_json::from_str::<serde_json::Value>` (failure ↦ `junk`), then
`.get("id"/"host")...as_str()` and `.get("port")...as_u64()` (absent or
wrongly typed fields ↦ `none`).  `upload_file` always stores
`obj (some id) (some host) (some port)`. -/
inductive StoredVal where
  | junk : StoredVal
  | obj : Option String → Option String → Option Nat → StoredVal
deriving DecidableEq, Repr

/-- Abstraction of a member string of the redis set `"nodes"`, as seen through
`serde_json::from_str::<serde_json::Value>` in `list_nodes_endpoint`:
`node id host port` is the serialization of a node descriptor (these are what
`register_node` writes, and they parse), `junkEntry raw` is a stored string
that fails to parse and is skipped. -/
inductive RegEntry where
  | node : String → String → Nat → RegEntry
  | junkEntry : String → RegEntry
deriving DecidableEq, Repr

/-- The local filesystem under `root_dir`: the set of bucket directories and
the files inside them, `(bucket, filename, content)` with content as a byte
list.  Creating a file implies its bucket directory exists (all writers call
`fs::create_dir_all` first). -/
structure FS where
  buckets : List String
  files : List (String × String × List Nat)
deriving DecidableEq, Repr

/-- Path existence test for `root_dir/bucket/filename` (`file_path.exists()`). -/
def FS.fileExists (fs : FS) (b f : String) : Bool :=
  fs.files.any (fun e => e.1 == b && e.2.1 == f)

/-- Contents at `root_dir/bucket/filename`, `none` when absent. -/
def FS.readFile (fs : FS) (b f : String) : Option (List Nat) :=
  (fs.files.find? (fun e => e.1 == b && e.2.1 == f)).map (fun e => e.2.2)

/-- Directory existence test for `root_dir/bucket` (`bucket_dir.exists()`). -/
def FS.dirExists (fs : FS) (b : String) : Bool :=
  fs.buckets.contains b

/-- Effect of a successful `fs::create_dir_all(root_dir/bucket)`: idempotent
directory creation. -/
def FS.createDirAll (fs : FS) (b : String) : FS :=
  { fs with buckets := if fs.buckets.contains b then fs.buckets else fs.buckets ++ [b] }

/-- Effect of a successful `tokio::fs::write(path, bytes)`: create or
truncate-and-overwrite the file at `root_dir/bucket/filename`. -/
def FS.writeFile (fs : FS) (b f : String) (c : List Nat) : FS :=
  { fs with files := fs.files.filter (fun e => !(e.1 == b && e.2.1 == f)) ++ [(b, f, c)] }

/-- Effect of a successful `fs::remove_file(root_dir/bucket/filename)`. -/
def FS.removeFile (fs : FS) (b f : String) : FS :=
  { fs with files := fs.files.filter (fun e => !(e.1 == b && e.2.1 == f)) }

/-- The shared redis instance at the configured `redis_url`.  `reachable`
models whether opening a connection succeeds; `kv` is the location directory,
`nodes` the members of the set `"nodes"`. -/
structure Redis where
  reachable : Bool
  kv : String → Option StoredVal
  nodes : List RegEntry

/-- `get_key` in src/redis.rs (= `get_redis_key` in src/main.rs): `GET key`,
an `anyhow::Result` that is an `Err` when the connection cannot be opened. -/
def get_key (r : Redis) (key : String) : Except Unit (Option StoredVal) :=
  if r.reachable then .ok (r.kv key) else .error ()

/-- `set_key` in src/redis.rs (= `set_redis_key` in src/main.rs): `SET key value`. -/
def set_key (r : Redis) (key : String) (v : StoredVal) : Except Unit Redis :=
  if r.reachable then
    .ok { r with kv := fun k => if k == key then some v else r.kv k }
  else .error ()

/-- `del_key` in src/redis.rs (= `del_redis_key` in src/main.rs): `DEL key`. -/
def del_key (r : Redis) (key : String) : Except Unit Redis :=
  if r.reachable then
    .ok { r with kv := fun k => if k == key then none else r.kv k }
  else .error ()

/-- `register_node` in src/redis.rs: `SADD "nodes" node_json` — set add,
a no-op when the member is already present. -/
def register_node (r : Redis) (e : RegEntry) : Except Unit Redis :=
  if r.reachable then
    .ok { r with nodes := if r.nodes.contains e then r.nodes else r.nodes ++ [e] }
  else .error ()

/-- `list_nodes` in src/redis.rs: `SMEMBERS "nodes"`. -/
def list_nodes (r : Redis) : Except Unit (List RegEntry) :=
  if r.reachable then .ok r.nodes else .error ()

/-- State effect of `let _ = set_key(url, key, value).await` — the result is
discarded; a failed call leaves the store unchanged. -/
def set_key_fire (r : Redis) (key : String) (v : StoredVal) : Redis :=
  match set_key r key v with
  | .ok r2 => r2
  | .error _ => r

/-- State effect of `let _ = del_key(url, key).await`. -/
def del_key_fire (r : Redis) (key : String) : Redis :=
  match del_key r key with
  | .ok r2 => r2
  | .error _ => r

/-- State effect of `let _ = register_node(url, node).await`. -/
def register_node_fire (r : Redis) (e : RegEntry) : Redis :=
  match register_node r e with
  | .ok r2 => r2
  | .error _ => r

/-! ### Handlers (src/handlers.rs, duplicated in src/main.rs) -/

/-- Responses of `create_bucket`, one constructor per return site:
`emptyName` and `invalidName` are the two 400 responses, `conflict` the 409,
`createFailed` the 500, `success` the 200 `{"success":true,"bucket":{...}}`. -/
inductive CreateBucketResp where
  | emptyName : CreateBucketResp
  | invalidName : CreateBucketResp
  | conflict : CreateBucketResp
  | createFailed : CreateBucketResp
  | success : String → CreateBucketResp
deriving DecidableEq, Repr

/-- The validity check inside `create_bucket`: every char is an ascii
lowercase letter, ascii digit or hyphen, and the name neither starts nor ends
with a hyphen. -/
def bucketNameOk (name : String) : Bool :=
  name.data.all (fun c => c.isLower || c.isDigit || c == '-')
    && !(name.data.head? == some '-') && !(name.data.getLast? == some '-')

/-- Handler `create_bucket` (src/handlers.rs lines 56-65).  `mkdirOk` is the
outcome of `fs::create_dir_all(bucket_dir)`. -/
def create_bucket (st : AppState) (fs : FS) (name : String) (mkdirOk : Bool) :
    CreateBucketResp × FS :=
  if name == "" then (.emptyName, fs)
  else if !(bucketNameOk name) then (.invalidName, fs)
  else if fs.dirExists name then (.conflict, fs)
  else if mkdirOk then (.success name, fs.createDirAll name)
  else (.createFailed, fs)

/-- One multipart field, as consumed by `upload_file`: `field.name()`,
`field.file_name()`, and `field.bytes()` which may fail. -/
structure MPField where
  name : Option String
  filename : Option String
  content : Except Unit (List Nat)

/-- Responses of `upload_file`, one constructor per return site. -/
inductive UploadResp where
  | mkdirFailed : UploadResp
  | readFailed : UploadResp
  | writeFailed : UploadResp
  | noFile : UploadResp
  | success : String → String → Nat → String → UploadResp
deriving DecidableEq, Repr

/-- The generated object key
`format!("{}-{}-{}", timestamp_millis, rand_u32, original_name)`. -/
def uploadKey (ts rnd : Nat) (originalName : String) : String :=
  Nat.repr ts ++ "-" ++ Nat.repr rnd ++ "-" ++ originalName

/-- The location-pointer value `upload_file` stores:
`{"id":"server-{pid}","host":public_host,"port":port_from_env()}`. -/
def ownerVal (st : AppState) (env : Env) : StoredVal :=
  .obj (some ("server-" ++ Nat.repr env.pid)) (some st.public_host) (some env.port)

/-- The multipart loop of `upload_file`: skip fields not named `"file"`,
process the first one named `"file"` and return; an exhausted stream is the
400 `"no file uploaded"` response.  `ts` and `rnd` are the oracle values of
`chrono::Utc::now().timestamp_millis()` and `rand_u32()` for the processed
field; `writeOk` is the outcome of `tokio::fs::write`. -/
def upload_file_loop (st : AppState) (env : Env) (fs : FS) (r : Redis)
    (bucket : String) (ts rnd : Nat) (writeOk : Bool) :
    List MPField → UploadResp × FS × Redis
  | [] => (.noFile, fs, r)
  | field :: rest =>
    if (field.name.getD "file") != "file" then
      upload_file_loop st env fs r bucket ts rnd writeOk rest
    else
      let originalName := field.filename.getD "upload.bin"
      let unique := uploadKey ts rnd originalName
      match field.content with
      | .error _ => (.readFailed, fs, r)
      | .ok bytes =>
        if writeOk then
          let fs2 := fs.writeFile bucket unique bytes
          let r2 :=
            match st.redis_url with
            | some _ => set_key_fire r (bucket ++ ":" ++ unique) (ownerVal st env)
            | none => r
          (.success unique originalName bytes.length bucket, fs2, r2)
        else (.writeFailed, fs, r)

/-- Handler `upload_file` (src/handlers.rs lines 94-111): unconditional
`fs::create_dir_all(bucket_dir)` — no bucket-name validation, no existence
check — then the multipart loop. -/
def upload_file (st : AppState) (env : Env) (fs : FS) (r : Redis)
    (bucket : String) (fields : List MPField) (ts rnd : Nat)
    (mkdirOk writeOk : Bool) : UploadResp × FS × Redis :=
  if mkdirOk then
    upload_file_loop st env (fs.createDirAll bucket) r bucket ts rnd writeOk fields
  else (.mkdirFailed, fs, r)

/-- Responses of `download_file`, one constructor per return site: 200 with
the streamed bytes, 307 redirect, 404, or 500 when `File::open` fails. -/
inductive DownloadResp where
  | served : String → List Nat → DownloadResp
  | redirect : String → DownloadResp
  | notFound : DownloadResp
  | openFailed : DownloadResp
deriving DecidableEq, Repr

/-- The redirect target `format!("http://{}:{}/api/buckets/{}/files/{}", ...)`. -/
def redirectTarget (host : String) (port : Nat) (bucket filename : String) : String :=
  "http://" ++ host ++ ":" ++ Nat.repr port ++ "/api/buckets/" ++ bucket
    ++ "/files/" ++ filename

/-- Handler `download_file` (src/handlers.rs lines 113-123): local miss →
single directory lookup → redirect when the stored value parses and carries
both a host and a port, 404 otherwise; local hit → stream the file
(`openOk` is the outcome of `tokio::fs::File::open`). -/
def download_file (st : AppState) (fs : FS) (r : Redis)
    (bucket filename : String) (openOk : Bool) : DownloadResp :=
  if !(fs.fileExists bucket filename) then
    match st.redis_url with
    | some _ =>
      match get_key r (bucket ++ ":" ++ filename) with
      | .ok (some loc) =>
        match loc with
        | .obj _ (some host) (some port) =>
          .redirect (redirectTarget host port bucket filename)
        | _ => .notFound
      | _ => .notFound
    | none => .notFound
  else if openOk then
    .served filename ((fs.readFile bucket filename).getD [])
  else .openFailed

/-- Responses of `delete_file`, one constructor per return site. -/
inductive DeleteResp where
  | notFound : DeleteResp
  | success : DeleteResp
  | removeFailed : DeleteResp
deriving DecidableEq, Repr

/-- Handler `delete_file` (src/handlers.rs lines 125-132): 404 when absent;
otherwise `fs::remove_file` (`removeOk`), and only on its success a
fire-and-forget `del_key` on the location directory. -/
def delete_file (st : AppState) (fs : FS) (r : Redis)
    (bucket filename : String) (removeOk : Bool) : DeleteResp × FS × Redis :=
  if !(fs.fileExists bucket filename) then (.notFound, fs, r)
  else if removeOk then
    let fs2 := fs.removeFile bucket filename
    let r2 :=
      match st.redis_url with
      | some _ => del_key_fire r (bucket ++ ":" ++ filename)
      | none => r
    (.success, fs2, r2)
  else (.removeFailed, fs, r)

/-- Responses of `file_info`: the 200 info JSON (with the optional
`"location"` field: `none` = field absent, `some v` = field present holding
the parse of the stored pointer) or the 404. -/
inductive InfoResp where
  | info : String → Nat → String → Option StoredVal → InfoResp
  | notFound : InfoResp
deriving DecidableEq, Repr

/-- Handler `file_info` (src/handlers.rs lines 134-144): `fs::metadata` on
the local path; on error a plain 404 — the location directory is consulted
only in the success branch, where the pointer is attached to the info JSON. -/
def file_info (st : AppState) (fs : FS) (r : Redis)
    (bucket filename : String) : InfoResp :=
  match fs.readFile bucket filename with
  | some content =>
    let location : Option StoredVal :=
      match st.redis_url with
      | some _ =>
        match get_key r (bucket ++ ":" ++ filename) with
        | .ok (some loc) => some loc
        | _ => none
      | none => none
    .info filename content.length bucket location
  | none => .notFound

/-- Body of `POST /api/nodes/register`: all three fields optional. -/
structure NodeRegisterReq where
  id : Option String
  host : Option String
  port : Option Nat
deriving Repr

/-- Handler `register_node_endpoint` (src/handlers.rs lines 151-157):
defaults from process id, `public_host`, `port_from_env()`; fire-and-forget
`SADD`; the response is always `{"success": true}`. -/
def register_node_endpoint (st : AppState) (env : Env) (r : Redis)
    (payload : Option NodeRegisterReq) : Bool × Redis :=
  let id := (payload.bind (fun p => p.id)).getD ("server-" ++ Nat.repr env.pid)
  let host := (payload.bind (fun p => p.host)).getD st.public_host
  let port := (payload.bind (fun p => p.port)).getD env.port
  let r2 :=
    match st.redis_url with
    | some _ => register_node_fire r (.node id host port)
    | none => r
  (true, r2)

/-- Handler `list_nodes_endpoint` (src/handlers.rs lines 159-162): members of
the `"nodes"` set, each filtered through `serde_json::from_str(..).ok()`;
a failed `SMEMBERS` or an absent `redis_url` yields the empty listing. -/
def list_nodes_endpoint (st : AppState) (r : Redis) : List (String × String × Nat) :=
  match st.redis_url with
  | some _ =>
    match list_nodes r with
    | .ok members =>
      members.filterMap (fun e =>
        match e with
        | .node id host port => some (id, host, port)
        | .junkEntry _ => none)
    | .error _ => []
  | none => []

/-! ### Auth gate (src/auth.rs, wired in src/routes.rs) -/

/-- The `API_KEY` environment read in `build_state`:
`env::var("API_KEY").ok().filter(|v| !v.is_empty())`. -/
def api_key_from_env (v : Option String) : Option String :=
  v.filter (fun s => !s.isEmpty)

/-- Middleware `auth_middleware` (src/auth.rs): `true` means the request is
passed to `next.run`, `false` means the 403 is returned before any handler.
`header` is the `x-api-key` header, `none` covering both a missing header and
one whose value is not valid ascii (`to_str()` failure). -/
def auth_middleware (api_key : Option String) (header : Option String) : Bool :=
  match api_key with
  | some expected =>
    if !expected.isEmpty then
      match header with
      | some got => got == expected
      | none => false
    else true
  | none => true

/-- Composition of the middleware with an arbitrary handler response, as
`route_layer` wires it in src/routes.rs: the handler value is produced only
when the gate passes. -/
def serve_with_auth {α : Type} (api_key : Option String) (header : Option String)
    (handler : α) (forbidden : α) : α :=
  if auth_middleware api_key header then handler else forbidden

/-! ### Helper lemmas about the filesystem model -/

theorem find?_filter_of_imp {α : Type} (l : List α) (p q : α → Bool)
    (h : ∀ x, p x = true → q x = true) :
    (l.filter q).find? p = l.find? p := by
  induction l with
  | nil => rfl
  | cons x l ih =>
    by_cases hq : q x = true
    · rw [List.filter_cons_of_pos hq]
      by_cases hp : p x = true
      · rw [List.find?_cons_of_pos _ hp, List.find?_cons_of_pos _ hp]
      · rw [List.find?_cons_of_neg _ hp, List.find?_cons_of_neg _ hp, ih]
    · have hp : ¬p x = true := fun hpx => hq (h x hpx)
      rw [List.filter_cons_of_neg hq, List.find?_cons_of_neg _ hp, ih]

theorem fileExists_true_of_readFile (fs : FS) (b f : String) (c : List Nat)
    (h : fs.readFile b f = some c) : fs.fileExists b f = true := by
  unfold FS.readFile at h
  unfold FS.fileExists
  cases hf : fs.files.find? (fun e => e.1 == b && e.2.1 == f) with
  | none => rw [hf] at h; simp at h
  | some e =>
    have hp := @List.find?_some _ (fun e => e.1 == b && e.2.1 == f) e fs.files hf
    exact List.any_eq_true.mpr ⟨e, List.mem_of_find?_eq_some hf, hp⟩

theorem readFile_writeFile_same (fs : FS) (b f : String) (c : List Nat) :
    (fs.writeFile b f c).readFile b f = some c := by
  unfold FS.writeFile FS.readFile
  rw [List.find?_append]
  have h1 : (fs.files.filter fun e => !(e.1 == b && e.2.1 == f)).find?
      (fun e => e.1 == b && e.2.1 == f) = none := by
    rw [List.find?_eq_none]
    intro x hx hpx
    have hq := List.of_mem_filter hx
    rw [hpx] at hq
    simp at hq
  have h2 : ([(b, f, c)].find? fun e => e.1 == b && e.2.1 == f) = some (b, f, c) :=
    List.find?_cons_of_pos _ (by simp)
  rw [h1, h2]
  rfl

theorem readFile_writeFile_other (fs : FS) (b f b2 f2 : String) (c : List Nat)
    (h : b2 ≠ b ∨ f2 ≠ f) :
    (fs.writeFile b f c).readFile b2 f2 = fs.readFile b2 f2 := by
  unfold FS.writeFile FS.readFile
  rw [List.find?_append]
  have hfilter : (fs.files.filter fun e => !(e.1 == b && e.2.1 == f)).find?
      (fun e => e.1 == b2 && e.2.1 == f2) =
      fs.files.find? (fun e => e.1 == b2 && e.2.1 == f2) := by
    apply find?_filter_of_imp
    intro x hx
    simp only [Bool.and_eq_true, beq_iff_eq] at hx
    simp only [hx.1, hx.2, Bool.not_eq_true', Bool.and_eq_false_iff]
    rcases h with h | h
    · exact Or.inl (by simpa using h)
    · exact Or.inr (by simpa using h)
  have hlast : ([(b, f, c)].find? fun e => e.1 == b2 && e.2.1 == f2) = none := by
    apply List.find?_cons_of_neg
    simp only [Bool.and_eq_true, beq_iff_eq, not_and]
    intro hb hf
    rcases h with h | h
    · exact absurd hb.symm h
    · exact absurd hf.symm h
  rw [hfilter, hlast, Option.or_none]

theorem readFile_removeFile_other (fs : FS) (b f b2 f2 : String)
    (h : b2 ≠ b ∨ f2 ≠ f) :
    (fs.removeFile b f).readFile b2 f2 = fs.readFile b2 f2 := by
  unfold FS.removeFile FS.readFile
  congr 1
  apply find?_filter_of_imp
  intro x hx
  simp only [Bool.and_eq_true, beq_iff_eq] at hx
  simp only [hx.1, hx.2, Bool.not_eq_true', Bool.and_eq_false_iff]
  rcases h with h | h
  · exact Or.inl (by simpa using h)
  · exact Or.inr (by simpa using h)

theorem fileExists_removeFile_same (fs : FS) (b f : String) :
    (fs.removeFile b f).fileExists b f = false := by
  unfold FS.removeFile FS.fileExists
  rw [Bool.eq_false_iff]
  intro hany
  rcases List.any_eq_true.mp hany with ⟨x, hx, hpx⟩
  have hq := List.of_mem_filter hx
  rw [hpx] at hq
  simp at hq

/-! ### Concrete states used by witnesses and counterexamples -/

/-- A configuration with a redis url and no API key. -/
def stW : AppState := ⟨"./storage", none, some "redis://localhost:6379/", "localhost"⟩

/-- A configuration whose redis url is absent. -/
def stN : AppState := ⟨"./storage", none, none, "localhost"⟩

/-- Process environment: pid 7, listen port 3001. -/
def envW : Env := ⟨7, 3001⟩

/-- A reachable redis holding one location pointer for key `"b:f"`. -/
def rW : Redis :=
  ⟨true, fun k => if k == "b:f" then some (.obj (some "server-7") (some "peer") (some 3002)) else none, []⟩

/-- An unreachable redis. -/
def rDown : Redis := ⟨false, fun _ => none, []⟩

/-- A reachable redis with an empty location directory and empty registry. -/
def r0 : Redis := ⟨true, fun _ => none, []⟩

/-- A filesystem with bucket `"b"` holding one object `"g"`. -/
def fsW : FS := ⟨["b"], [("b", "g", [1, 2])]⟩

/-- A multipart request field carrying `"a.txt"` with content `[1]`. -/
def fieldA : MPField := ⟨some "file", some "a.txt", .ok [1]⟩

/-- A multipart request field carrying `"a.txt"` with content `[2]`. -/
def fieldB : MPField := ⟨some "file", some "a.txt", .ok [2]⟩

/-! ### C1 — download resolver -/

/-- C1: for a download of `(bucket, filename)`: a locally present file is
served directly; a locally absent file whose directory entry under
`"{bucket}:{filename}"` carries a host and a port is answered with a redirect
to exactly `http://{host}:{port}/api/buckets/{bucket}/files/{filename}`; a
missing directory entry, or an unreachable directory, is answered 404.  Each
case is a single terminal response of the one-shot resolver — there is no
retry and no recursive chase. -/
theorem download_resolver_correct (st : AppState) (fs : FS) (r : Redis)
    (bucket filename : String) (openOk : Bool) (u : String)
    (idv : Option String) (host : String) (port : Nat) (c : List Nat) :
    (fs.readFile bucket filename = some c → openOk = true →
      download_file st fs r bucket filename openOk = .served filename c) ∧
    (fs.fileExists bucket filename = false → st.redis_url = some u →
      r.reachable = true →
      r.kv (bucket ++ ":" ++ filename) = some (.obj idv (some host) (some port)) →
      download_file st fs r bucket filename openOk =
        .redirect ("http://" ++ host ++ ":" ++ Nat.repr port ++ "/api/buckets/"
          ++ bucket ++ "/files/" ++ filename)) ∧
    (fs.fileExists bucket filename = false →
      r.kv (bucket ++ ":" ++ filename) = none →
      download_file st fs r bucket filename openOk = .notFound) ∧
    (fs.fileExists bucket filename = false → r.reachable = false →
      download_file st fs r bucket filename openOk = .notFound) := by
  refine ⟨?_, ?_, ?_, ?_⟩
  · intro hread hopen
    have hex := fileExists_true_of_readFile fs bucket filename c hread
    simp [download_file, hex, hopen, hread]
  · intro hex hurl hreach hkv
    simp [download_file, hex, hurl, get_key, hreach, hkv, redirectTarget]
  · intro hex hkv
    cases hurl : st.redis_url with
    | none => simp [download_file, hex, hurl]
    | some u2 =>
      cases hreach : r.reachable with
      | false => simp [download_file, hex, hurl, get_key, hreach]
      | true => simp [download_file, hex, hurl, get_key, hreach, hkv]
  · intro hex hreach
    cases hurl : st.redis_url with
    | none => simp [download_file, hex, hurl]
    | some u2 => simp [download_file, hex, hurl, get_key, hreach]

/-- Witness for C1 at concrete states: a local hit is served, a directory hit
redirects to the literal peer URL, a missing entry and an unreachable
directory both give 404. -/
theorem download_resolver_correct_witness :
    (fsW.readFile "b" "g" = some [1, 2] ∧
      download_file stW fsW rW "b" "g" true = .served "g" [1, 2]) ∧
    (fsW.fileExists "b" "f" = false ∧ rW.reachable = true ∧
      rW.kv "b:f" = some (.obj (some "server-7") (some "peer") (some 3002)) ∧
      download_file stW fsW rW "b" "f" true =
        .redirect "http://peer:3002/api/buckets/b/files/f") ∧
    (rW.kv "b:x" = none ∧ download_file stW fsW rW "b" "x" true = .notFound) ∧
    (rDown.reachable = false ∧ download_file stW fsW rDown "b" "f" true = .notFound) := by
  have h1 := (download_resolver_correct stW fsW rW "b" "g" true "redis://localhost:6379/"
    (some "server-7") "peer" 3002 [1, 2]).1
  have h2 := (download_resolver_correct stW fsW rW "b" "f" true "redis://localhost:6379/"
    (some "server-7") "peer" 3002 [1, 2]).2.1
  have h3 := (download_resolver_correct stW fsW rW "b" "x" true "redis://localhost:6379/"
    (some "server-7") "peer" 3002 [1, 2]).2.2.1
  have h4 := (download_resolver_correct stW fsW rDown "b" "f" true "redis://localhost:6379/"
    (some "server-7") "peer" 3002 [1, 2]).2.2.2
  refine ⟨⟨by decide, h1 (by decide) rfl⟩, ⟨by decide, rfl, by decide, ?_⟩,
    ⟨by decide, h3 (by decide) (by decide)⟩, ⟨rfl, h4 (by decide) rfl⟩⟩
  have := h2 (by decide) rfl rfl (by decide)
  rw [this]
  decide

/-! ### C2 — stat requests do not redirect -/

/-- C2 counterexample: with the object absent locally and the directory
reachable and holding a pointer for `"b:f"` carrying a host and a port, the
stat handler `file_info` answers 404 — not a redirect as the claim states. -/
theorem file_info_no_redirect_counterexample :
    fsW.fileExists "b" "f" = false ∧
    rW.reachable = true ∧
    rW.kv "b:f" = some (.obj (some "server-7") (some "peer") (some 3002)) ∧
    file_info stW fsW rW "b" "f" = .notFound := by
  refine ⟨by decide, rfl, by decide, by decide⟩

/-- C2 (amended): on a stat request for an object absent locally, `file_info`
answers 404 without consulting the Location Directory — the response is the
same whatever the directory contains or whether it is reachable; the
directory is consulted only when the object is present, where its pointer is
attached to the info JSON rather than causing a redirect. -/
theorem file_info_local_miss_not_found (st : AppState) (fs : FS) (r r2 : Redis)
    (bucket filename : String)
    (h : fs.readFile bucket filename = none) :
    file_info st fs r bucket filename = .notFound ∧
    file_info st fs r bucket filename = file_info st fs r2 bucket filename := by
  constructor
  · simp [file_info, h]
  · simp [file_info, h]

/-- Witness for C2's amended theorem: on the concrete miss state the stat
response is 404 and coincides with the response under an unreachable
directory. -/
theorem file_info_local_miss_not_found_witness :
    fsW.readFile "b" "f" = none ∧
    file_info stW fsW rW "b" "f" = .notFound ∧
    file_info stW fsW rW "b" "f" = file_info stW fsW rDown "b" "f" := by
  have h := file_info_local_miss_not_found stW fsW rW rDown "b" "f" (by decide)
  exact ⟨by decide, h.1, h.2⟩

/-! ### C3 — key uniqueness across uploads -/

theorem uploadKey_inj (ts1 rnd1 ts2 rnd2 : Nat) (name : String)
    (h : uploadKey ts1 rnd1 name = uploadKey ts2 rnd2 name) :
    ts1 = ts2 ∧ rnd1 = rnd2 := by
  have hd := congrArg String.data h
  have hdash : ("-" : String).data = ['-'] := rfl
  simp only [uploadKey, data_append, hdash, List.append_assoc,
    List.singleton_append] at hd
  obtain ⟨hts, htail⟩ := append_dash_inj (Nat.repr ts1).data (Nat.repr ts2).data
    _ _ (repr_not_dash ts1) (repr_not_dash ts2) hd
  obtain ⟨hrnd, _⟩ := append_dash_inj (Nat.repr rnd1).data (Nat.repr rnd2).data
    _ _ (repr_not_dash rnd1) (repr_not_dash rnd2) htail
  constructor
  · apply toDigits_inj
    rw [← repr_data, ← repr_data, hts]
  · apply toDigits_inj
    rw [← repr_data, ← repr_data, hrnd]

/-- The filesystem component an upload of a single well-formed `"file"` field
leaves behind: the bucket directory is ensured, then the payload is written
under the generated key. -/
theorem upload_single_fs (st : AppState) (env : Env) (fs : FS) (r : Redis)
    (bucket name : String) (c : List Nat) (ts rnd : Nat) :
    (upload_file st env fs r bucket [⟨some "file", some name, .ok c⟩]
        ts rnd true true).2.1 =
      (fs.createDirAll bucket).writeFile bucket (uploadKey ts rnd name) c := rfl

/-- The response component of the same upload. -/
theorem upload_single_resp (st : AppState) (env : Env) (fs : FS) (r : Redis)
    (bucket name : String) (c : List Nat) (ts rnd : Nat) :
    (upload_file st env fs r bucket [⟨some "file", some name, .ok c⟩]
        ts rnd true true).1 =
      .success (uploadKey ts rnd name) name c.length bucket := rfl

/-- C3 counterexample: two uploads of the same original name to the same
bucket that draw the same millisecond timestamp and the same random 32-bit
value generate the *same* key `"1-2-a.txt"`, and the second upload overwrites
the first object (its content `[1]` is replaced by `[2]`): the claim's
universally quantified distinctness and never-overwrite guarantees fail. -/
theorem upload_key_collision_counterexample :
    uploadKey 1 2 "a.txt" = uploadKey 1 2 "a.txt" ∧
    (upload_file stN envW ⟨[], []⟩ r0 "b" [fieldA] 1 2 true true).1 =
      .success "1-2-a.txt" "a.txt" 1 "b" ∧
    (upload_file stN envW
        ((upload_file stN envW ⟨[], []⟩ r0 "b" [fieldA] 1 2 true true).2.1)
        r0 "b" [fieldB] 1 2 true true).1 =
      .success "1-2-a.txt" "a.txt" 1 "b" ∧
    ((upload_file stN envW
        ((upload_file stN envW ⟨[], []⟩ r0 "b" [fieldA] 1 2 true true).2.1)
        r0 "b" [fieldB] 1 2 true true).2.1).files = [("b", "1-2-a.txt", [2])] := by
  decide

/-- C3 (amended): provided the two uploads differ in their millisecond
timestamp or in their random 32-bit draw, the generated keys are distinct,
both objects are independently readable afterwards, deleting the first does
not affect the second, and the second upload leaves every object other than
its own key untouched (in particular it overwrites nothing pre-existing). -/
theorem upload_twice_distinct (st : AppState) (env : Env) (fs : FS)
    (r1 r2 r3 : Redis) (bucket name : String) (c1 c2 : List Nat)
    (ts1 rnd1 ts2 rnd2 : Nat) (horacle : ts1 ≠ ts2 ∨ rnd1 ≠ rnd2) :
    uploadKey ts1 rnd1 name ≠ uploadKey ts2 rnd2 name ∧
    (((upload_file st env
        ((upload_file st env fs r1 bucket [⟨some "file", some name, .ok c1⟩]
          ts1 rnd1 true true).2.1)
        r2 bucket [⟨some "file", some name, .ok c2⟩]
        ts2 rnd2 true true).2.1).readFile bucket (uploadKey ts1 rnd1 name) = some c1 ∧
      ((upload_file st env
        ((upload_file st env fs r1 bucket [⟨some "file", some name, .ok c1⟩]
          ts1 rnd1 true true).2.1)
        r2 bucket [⟨some "file", some name, .ok c2⟩]
        ts2 rnd2 true true).2.1).readFile bucket (uploadKey ts2 rnd2 name) = some c2) ∧
    (∀ b2 f2, ¬(b2 = bucket ∧ f2 = uploadKey ts2 rnd2 name) →
      ((upload_file st env
        ((upload_file st env fs r1 bucket [⟨some "file", some name, .ok c1⟩]
          ts1 rnd1 true true).2.1)
        r2 bucket [⟨some "file", some name, .ok c2⟩]
        ts2 rnd2 true true).2.1).readFile b2 f2 =
       ((upload_file st env fs r1 bucket [⟨some "file", some name, .ok c1⟩]
          ts1 rnd1 true true).2.1).readFile b2 f2) ∧
    ((delete_file st
        ((upload_file st env
          ((upload_file st env fs r1 bucket [⟨some "file", some name, .ok c1⟩]
            ts1 rnd1 true true).2.1)
          r2 bucket [⟨some "file", some name, .ok c2⟩]
          ts2 rnd2 true true).2.1)
        r3 bucket (uploadKey ts1 rnd1 name) true).1 = .success ∧
      ((delete_file st
        ((upload_file st env
          ((upload_file st env fs r1 bucket [⟨some "file", some name, .ok c1⟩]
            ts1 rnd1 true true).2.1)
          r2 bucket [⟨some "file", some name, .ok c2⟩]
          ts2 rnd2 true true).2.1)
        r3 bucket (uploadKey ts1 rnd1 name) true).2.1).fileExists bucket
          (uploadKey ts1 rnd1 name) = false ∧
      ((delete_file st
        ((upload_file st env
          ((upload_file st env fs r1 bucket [⟨some "file", some name, .ok c1⟩]
            ts1 rnd1 true true).2.1)
          r2 bucket [⟨some "file", some name, .ok c2⟩]
          ts2 rnd2 true true).2.1)
        r3 bucket (uploadKey ts1 rnd1 name) true).2.1).readFile bucket
          (uploadKey ts2 rnd2 name) = some c2) := by
  have hkey : uploadKey ts1 rnd1 name ≠ uploadKey ts2 rnd2 name := by
    intro heq
    rcases uploadKey_inj ts1 rnd1 ts2 rnd2 name heq with ⟨h1, h2⟩
    rcases horacle with h | h
    · exact h h1
    · exact h h2
  rw [upload_single_fs, upload_single_fs]
  have hread1 : FS.readFile ((((fs.createDirAll bucket).writeFile bucket
      (uploadKey ts1 rnd1 name) c1).createDirAll bucket).writeFile bucket
      (uploadKey ts2 rnd2 name) c2) bucket (uploadKey ts1 rnd1 name) = some c1 := by
    rw [readFile_writeFile_other _ _ _ _ _ _ (Or.inr hkey)]
    exact readFile_writeFile_same _ bucket (uploadKey ts1 rnd1 name) c1
  have hread2 : FS.readFile ((((fs.createDirAll bucket).writeFile bucket
      (uploadKey ts1 rnd1 name) c1).createDirAll bucket).writeFile bucket
      (uploadKey ts2 rnd2 name) c2) bucket (uploadKey ts2 rnd2 name) = some c2 :=
    readFile_writeFile_same _ bucket (uploadKey ts2 rnd2 name) c2
  refine ⟨hkey, ⟨hread1, hread2⟩, ?_, ?_⟩
  · intro b2 f2 hne
    apply readFile_writeFile_other
    by_cases hb : b2 = bucket
    · exact Or.inr (fun hf => hne ⟨hb, hf⟩)
    · exact Or.inl hb
  · have hex1 : FS.fileExists ((((fs.createDirAll bucket).writeFile bucket
        (uploadKey ts1 rnd1 name) c1).createDirAll bucket).writeFile bucket
        (uploadKey ts2 rnd2 name) c2) bucket (uploadKey ts1 rnd1 name) = true :=
      fileExists_true_of_readFile _ _ _ c1 hread1
    refine ⟨?_, ?_, ?_⟩
    · simp [delete_file, hex1]
    · simp [delete_file, hex1, fileExists_removeFile_same]
    · simp only [delete_file, hex1, Bool.not_true, Bool.false_eq_true, if_false,
        if_true]
      rw [readFile_removeFile_other _ _ _ _ _ (Or.inr (Ne.symm hkey))]
      exact hread2

/-- Witness for C3's amended theorem at concrete oracles 1/2 versus 1/3:
distinct keys, both objects readable, the second survives deletion of the
first. -/
theorem upload_twice_distinct_witness :
    (1 ≠ 1 ∨ 2 ≠ 3) ∧
    uploadKey 1 2 "a.txt" ≠ uploadKey 1 3 "a.txt" ∧
    ((upload_file stN envW
        ((upload_file stN envW ⟨[], []⟩ r0 "b" [fieldA] 1 2 true true).2.1)
        r0 "b" [fieldB] 1 3 true true).2.1).readFile "b" (uploadKey 1 2 "a.txt")
      = some [1] ∧
    ((upload_file stN envW
        ((upload_file stN envW ⟨[], []⟩ r0 "b" [fieldA] 1 2 true true).2.1)
        r0 "b" [fieldB] 1 3 true true).2.1).readFile "b" (uploadKey 1 3 "a.txt")
      = some [2] ∧
    ((delete_file stN
        ((upload_file stN envW
          ((upload_file stN envW ⟨[], []⟩ r0 "b" [fieldA] 1 2 true true).2.1)
          r0 "b" [fieldB] 1 3 true true).2.1)
        r0 "b" (uploadKey 1 2 "a.txt") true).2.1).readFile "b" (uploadKey 1 3 "a.txt")
      = some [2] := by
  have h := upload_twice_distinct stN envW ⟨[], []⟩ r0 r0 r0 "b" "a.txt" [1] [2]
    1 2 1 3 (Or.inr (by decide))
  exact ⟨Or.inr (by decide), h.1, h.2.1.1, h.2.1.2, h.2.2.2.2.2⟩

/-! ### C4 — local outcome independent of the directory -/

/-- Discriminator for the 200 upload response. -/
def UploadResp.isSuccess : UploadResp → Bool
  | .success _ _ _ _ => true
  | _ => false

theorem upload_file_loop_resp_congr (st : AppState) (env : Env) (fs : FS)
    (r r2 : Redis) (bucket : String) (ts rnd : Nat) (writeOk : Bool) :
    ∀ fields, (upload_file_loop st env fs r bucket ts rnd writeOk fields).1 =
      (upload_file_loop st env fs r2 bucket ts rnd writeOk fields).1 := by
  intro fields
  induction fields with
  | nil => rfl
  | cons field rest ih =>
    unfold upload_file_loop
    cases hname : (field.name.getD "file") != "file" with
    | true => simpa [hname] using ih
    | false =>
      simp only [hname, Bool.false_eq_true, if_false]
      cases field.content with
      | error e => rfl
      | ok bytes => cases writeOk <;> rfl

theorem upload_file_loop_redis_unchanged (st : AppState) (env : Env) (fs : FS)
    (r : Redis) (bucket : String) (ts rnd : Nat) (writeOk : Bool) :
    ∀ fields,
      (upload_file_loop st env fs r bucket ts rnd writeOk fields).1.isSuccess = false →
      (upload_file_loop st env fs r bucket ts rnd writeOk fields).2.2 = r := by
  intro fields
  induction fields with
  | nil => intro _; rfl
  | cons field rest ih =>
    unfold upload_file_loop
    cases hname : (field.name.getD "file") != "file" with
    | true => simpa [hname] using ih
    | false =>
      simp only [hname, Bool.false_eq_true, if_false]
      cases field.content with
      | error e => intro _; rfl
      | ok bytes =>
        cases writeOk with
        | false => intro _; rfl
        | true => intro habs; simp [UploadResp.isSuccess] at habs

/-- C4: the outcome reported for an upload and for a delete depends only on
the local filesystem operations, never on the Location Directory: the
response is the same whatever the directory state or reachability; the
directory record is attempted only after the local write fully succeeds (when
the response is not a success, the directory is untouched, so the key is never
published early); the directory forget is attempted only after the local
delete succeeds (any non-success delete leaves the directory untouched). -/
theorem local_outcome_independent_of_directory (st : AppState) (env : Env)
    (fs : FS) (r r2 : Redis) (bucket filename : String) (fields : List MPField)
    (ts rnd : Nat) (mkdirOk writeOk removeOk : Bool) :
    ((upload_file st env fs r bucket fields ts rnd mkdirOk writeOk).1 =
      (upload_file st env fs r2 bucket fields ts rnd mkdirOk writeOk).1) ∧
    ((upload_file st env fs r bucket fields ts rnd mkdirOk writeOk).1.isSuccess
        = false →
      (upload_file st env fs r bucket fields ts rnd mkdirOk writeOk).2.2 = r) ∧
    ((delete_file st fs r bucket filename removeOk).1 =
      (delete_file st fs r2 bucket filename removeOk).1) ∧
    ((delete_file st fs r bucket filename removeOk).1 ≠ .success →
      (delete_file st fs r bucket filename removeOk).2.2 = r) := by
  refine ⟨?_, ?_, ?_, ?_⟩
  · cases mkdirOk with
    | false => rfl
    | true =>
      exact upload_file_loop_resp_congr st env (fs.createDirAll bucket) r r2
        bucket ts rnd writeOk fields
  · cases mkdirOk with
    | false => intro _; rfl
    | true =>
      exact upload_file_loop_redis_unchanged st env (fs.createDirAll bucket) r
        bucket ts rnd writeOk fields
  · unfold delete_file
    cases h : fs.fileExists bucket filename <;> cases removeOk <;> simp
  · unfold delete_file
    cases h : fs.fileExists bucket filename with
    | false => intro _; simp
    | true =>
      cases removeOk with
      | false => intro _; simp
      | true => intro habs; simp at habs

/-- Witness for C4: a failed local write reports the same error whether the
directory is up or down and publishes nothing; a delete of a missing file
reports 404 in both cases and forgets nothing. -/
theorem local_outcome_independent_of_directory_witness :
    (upload_file stW envW fsW rW "b" [fieldA] 1 2 true false).1 =
      (upload_file stW envW fsW rDown "b" [fieldA] 1 2 true false).1 ∧
    ((upload_file stW envW fsW rW "b" [fieldA] 1 2 true false).1.isSuccess
      = false) ∧
    (upload_file stW envW fsW rW "b" [fieldA] 1 2 true false).2.2 = rW ∧
    (delete_file stW fsW rW "b" "missing" true).1 =
      (delete_file stW fsW rDown "b" "missing" true).1 ∧
    (delete_file stW fsW rW "b" "missing" true).1 ≠ .success ∧
    (delete_file stW fsW rW "b" "missing" true).2.2 = rW := by
  have h := local_outcome_independent_of_directory stW envW fsW rW rDown "b"
    "missing" [fieldA] 1 2 true false true
  exact ⟨h.1, by decide, h.2.1 (by decide), h.2.2.1, by decide, h.2.2.2 (by decide)⟩

/-! ### C5 — bucket name validation -/

/-- The claim's notion of an invalid bucket name, written from the spec's
words: empty, or containing any character other than lowercase ascii letters,
digits and hyphen (uppercase included), or starting or ending with a hyphen. -/
def claimInvalidName (name : String) : Bool :=
  name == "" || name.data.any (fun c => !(c.isLower || c.isDigit || c == '-'))
    || name.data.head? == some '-' || name.data.getLast? == some '-'

theorem claimInvalidName_eq (name : String) :
    claimInvalidName name = (name == "" || !(bucketNameOk name)) := by
  unfold claimInvalidName bucketNameOk
  rw [List.all_eq_not_any_not]
  cases name == "" <;> cases name.data.any (fun c => !(c.isLower || c.isDigit || c == '-'))
    <;> cases name.data.head? == some '-' <;> cases name.data.getLast? == some '-' <;> rfl

/-- C5: every invalid bucket name (empty, an illegal character, or a leading
or trailing hyphen) makes `create_bucket` answer one of its two 400 responses
while the filesystem is left unchanged (no directory is created); every other
name passes the validity gate, i.e. produces neither 400 response. -/
theorem create_bucket_validation (st : AppState) (fs : FS) (name : String)
    (mkdirOk : Bool) :
    (claimInvalidName name = true →
      ((create_bucket st fs name mkdirOk).1 = .emptyName ∨
        (create_bucket st fs name mkdirOk).1 = .invalidName) ∧
      (create_bucket st fs name mkdirOk).2 = fs) ∧
    (claimInvalidName name = false →
      (create_bucket st fs name mkdirOk).1 ≠ .emptyName ∧
      (create_bucket st fs name mkdirOk).1 ≠ .invalidName) := by
  rw [claimInvalidName_eq]
  constructor
  · intro h
    cases hempty : name == "" with
    | true => simp [create_bucket, hempty]
    | false =>
      rw [hempty] at h
      simp only [Bool.false_or, Bool.not_eq_true'] at h
      simp [create_bucket, hempty, h]
  · intro h
    simp only [Bool.or_eq_false_iff, Bool.not_eq_false'] at h
    obtain ⟨hempty, hok⟩ := h
    unfold create_bucket
    simp only [hempty, Bool.false_eq_true, if_false, hok, Bool.not_true]
    cases fs.dirExists name <;> cases mkdirOk <;> simp

/-- Witness for C5: the names `""`, `"My-Bucket"` and `"-a-"` are rejected
with a 400 and create nothing; `"ok-bucket"` passes the gate. -/
theorem create_bucket_validation_witness :
    (claimInvalidName "" = true ∧
      (create_bucket stW fsW "" true).1 = .emptyName ∧
      (create_bucket stW fsW "" true).2 = fsW) ∧
    (claimInvalidName "My-Bucket" = true ∧
      (create_bucket stW fsW "My-Bucket" true).1 = .invalidName ∧
      (create_bucket stW fsW "My-Bucket" true).2 = fsW) ∧
    (claimInvalidName "-a-" = true ∧
      (create_bucket stW fsW "-a-" true).1 = .invalidName ∧
      (create_bucket stW fsW "-a-" true).2 = fsW) ∧
    (claimInvalidName "ok-bucket" = false ∧
      (create_bucket stW fsW "ok-bucket" true).1 ≠ .emptyName ∧
      (create_bucket stW fsW "ok-bucket" true).1 ≠ .invalidName) := by
  have h1 := (create_bucket_validation stW fsW "" true).1 (by decide)
  have h2 := (create_bucket_validation stW fsW "My-Bucket" true).1 (by decide)
  have h3 := (create_bucket_validation stW fsW "-a-" true).1 (by decide)
  have h4 := (create_bucket_validation stW fsW "ok-bucket" true).2 (by decide)
  exact ⟨⟨by decide, by decide, h1.2⟩, ⟨by decide, by decide, h2.2⟩,
    ⟨by decide, by decide, h3.2⟩, ⟨by decide, h4.1, h4.2⟩⟩

/-! ### C6 — create succeeds exactly once -/

/-- C6: for a valid, non-empty bucket name that does not yet exist, the first
`create_bucket` returns success and creates the directory; the immediately
repeated call returns 409 Conflict and leaves the filesystem exactly as the
first call left it. -/
theorem create_bucket_exactly_once (st : AppState) (fs : FS) (name : String)
    (hne : name ≠ "") (hvalid : bucketNameOk name = true)
    (habsent : fs.dirExists name = false) :
    create_bucket st fs name true = (.success name, fs.createDirAll name) ∧
    create_bucket st (fs.createDirAll name) name true =
      (.conflict, fs.createDirAll name) := by
  have hempty : (name == "") = false := by
    simpa using hne
  have hexists2 : (fs.createDirAll name).dirExists name = true := by
    unfold FS.createDirAll FS.dirExists
    unfold FS.dirExists at habsent
    have hmem : name ∉ fs.buckets := by simpa using habsent
    simp [hmem]
  constructor
  · simp [create_bucket, hempty, hvalid, habsent]
  · simp [create_bucket, hempty, hvalid, hexists2]

/-- Witness for C6 on the fresh name `"ok-bucket"` over the concrete store. -/
theorem create_bucket_exactly_once_witness :
    ("ok-bucket" : String) ≠ "" ∧ bucketNameOk "ok-bucket" = true ∧
    fsW.dirExists "ok-bucket" = false ∧
    create_bucket stW fsW "ok-bucket" true =
      (.success "ok-bucket", fsW.createDirAll "ok-bucket") ∧
    create_bucket stW (fsW.createDirAll "ok-bucket") "ok-bucket" true =
      (.conflict, fsW.createDirAll "ok-bucket") := by
  have h := create_bucket_exactly_once stW fsW "ok-bucket" (by decide) (by decide)
    (by decide)
  exact ⟨by decide, by decide, by decide, h.1, h.2⟩

/-! ### C7 — idempotent node registration -/

theorem register_node_fire_idem (r : Redis) (e : RegEntry) :
    register_node_fire (register_node_fire r e) e = register_node_fire r e := by
  unfold register_node_fire register_node
  cases hreach : r.reachable with
  | false => simp [hreach]
  | true =>
    simp only [hreach, if_true]
    cases hc : r.nodes.contains e with
    | true =>
      have hmem : e ∈ r.nodes := by simpa using hc
      simp [hc, hreach, hmem]
    | false =>
      simp only [hc, Bool.false_eq_true, if_false]
      have happ : (r.nodes ++ [e]).contains e = true := by simp
      simp [hreach, happ]

/-- C7: node registration is idempotent — registering the same descriptor
payload twice (hence identical id, host and port values, the defaults being
deterministic) leaves the registry state, and therefore the node listing,
exactly as after one registration; each call reports success, in particular
no error is reported when the descriptor is already present. -/
theorem register_node_idempotent (st : AppState) (env : Env) (r : Redis)
    (payload : Option NodeRegisterReq) :
    (register_node_endpoint st env r payload).1 = true ∧
    (register_node_endpoint st env
        ((register_node_endpoint st env r payload).2) payload).1 = true ∧
    (register_node_endpoint st env
        ((register_node_endpoint st env r payload).2) payload).2 =
      (register_node_endpoint st env r payload).2 ∧
    list_nodes_endpoint st
      ((register_node_endpoint st env
        ((register_node_endpoint st env r payload).2) payload).2) =
      list_nodes_endpoint st ((register_node_endpoint st env r payload).2) := by
  have hfix : (register_node_endpoint st env
      ((register_node_endpoint st env r payload).2) payload).2 =
      (register_node_endpoint st env r payload).2 := by
    unfold register_node_endpoint
    cases hurl : st.redis_url with
    | none => rfl
    | some u => simpa only [hurl] using register_node_fire_idem r _
  exact ⟨rfl, rfl, hfix, congrArg (list_nodes_endpoint st) hfix⟩

/-! ### C8 — listing robust to junk entries and outages -/

/-- A reachable registry holding two descriptor entries and one junk entry. -/
def rNodes : Redis :=
  ⟨true, fun _ => none,
    [.node "n1" "h1" 3001, .junkEntry "oops", .node "n2" "h2" 3002]⟩

/-- C8: the node listing never fails as a whole: with the registry reachable
the returned list contains exactly the stored entries that parse as node
descriptors (junk entries are skipped, the rest are returned); with the
registry unreachable (or no redis url configured) the listing degrades to the
empty list, and registration degrades to a no-op that still reports
success. -/
theorem list_nodes_robust (st : AppState) (env : Env) (r : Redis) (u : String)
    (payload : Option NodeRegisterReq) :
    (st.redis_url = some u → r.reachable = true →
      ∀ id host port, (id, host, port) ∈ list_nodes_endpoint st r ↔
        RegEntry.node id host port ∈ r.nodes) ∧
    (r.reachable = false → list_nodes_endpoint st r = []) ∧
    (st.redis_url = none → list_nodes_endpoint st r = []) ∧
    (r.reachable = false → (register_node_endpoint st env r payload).1 = true ∧
      (register_node_endpoint st env r payload).2 = r) := by
  refine ⟨?_, ?_, ?_, ?_⟩
  · intro hurl hreach id host port
    simp only [list_nodes_endpoint, hurl, list_nodes, hreach, if_true]
    rw [List.mem_filterMap]
    constructor
    · rintro ⟨a, ha, hfa⟩
      cases a with
      | node i h p =>
        simp only [Option.some.injEq, Prod.mk.injEq] at hfa
        obtain ⟨h1, h2, h3⟩ := hfa
        rw [← h1, ← h2, ← h3]
        exact ha
      | junkEntry s => simp at hfa
    · intro hmem
      exact ⟨.node id host port, hmem, rfl⟩
  · intro hreach
    unfold list_nodes_endpoint list_nodes
    cases hurl : st.redis_url with
    | none => rfl
    | some u2 => simp [hreach]
  · intro hurl
    simp [list_nodes_endpoint, hurl]
  · intro hreach
    refine ⟨rfl, ?_⟩
    unfold register_node_endpoint register_node_fire register_node
    cases hurl : st.redis_url with
    | none => rfl
    | some u2 => simp [hreach]

/-- Witness for C8: over a registry holding junk, the listing returns exactly
the parseable descriptors; unreachable registry and missing url give the
empty listing; registration against an unreachable registry still reports
success and changes nothing. -/
theorem list_nodes_robust_witness :
    stW.redis_url = some "redis://localhost:6379/" ∧ rNodes.reachable = true ∧
    (("n1", "h1", 3001) ∈ list_nodes_endpoint stW rNodes ↔
      RegEntry.node "n1" "h1" 3001 ∈ rNodes.nodes) ∧
    list_nodes_endpoint stW rNodes = [("n1", "h1", 3001), ("n2", "h2", 3002)] ∧
    list_nodes_endpoint stW rDown = [] ∧
    list_nodes_endpoint stN rNodes = [] ∧
    (register_node_endpoint stW envW rDown none).1 = true ∧
    (register_node_endpoint stW envW rDown none).2 = rDown := by
  have h := list_nodes_robust stW envW rNodes "redis://localhost:6379/" none
  have h2 := list_nodes_robust stW envW rDown "redis://localhost:6379/" none
  have h3 := list_nodes_robust stN envW rNodes "redis://localhost:6379/" none
  exact ⟨rfl, rfl, h.1 rfl rfl "n1" "h1" 3001, by decide, h2.2.1 rfl,
    h3.2.2.1 rfl, (h2.2.2.2 rfl).1, (h2.2.2.2 rfl).2⟩

/-! ### C9 — API key gate -/

/-- C9: with a non-empty secret configured, the gate passes a request exactly
when its `x-api-key` header equals the secret, and any other request is
answered with the 403 before the handler value is used; with no secret
configured — including the case of an empty `API_KEY`, which `build_state`
filters to `none`, and the middleware's own empty-secret re-check — every
request passes to the handler unmodified. -/
theorem auth_gate_correct {α : Type} (secret : String) (hne : secret ≠ "")
    (header : Option String) (handler forbidden : α) :
    (auth_middleware (some secret) header = true ↔ header = some secret) ∧
    (header ≠ some secret →
      serve_with_auth (some secret) header handler forbidden = forbidden) ∧
    (header = some secret →
      serve_with_auth (some secret) header handler forbidden = handler) ∧
    (auth_middleware none header = true ∧
      serve_with_auth none header handler forbidden = handler) ∧
    (auth_middleware (some "") header = true ∧
      serve_with_auth (some "") header handler forbidden = handler) ∧
    (api_key_from_env (some "") = none ∧ api_key_from_env none = none ∧
      api_key_from_env (some secret) = some secret) := by
  have hempty : secret.isEmpty = false := by
    cases h : secret.isEmpty with
    | false => rfl
    | true => exact absurd ((String.isEmpty_iff secret).mp h) hne
  have hmid : auth_middleware (some secret) header = true ↔ header = some secret := by
    unfold auth_middleware
    simp only [hempty, Bool.not_false, if_true]
    cases header with
    | none => simp
    | some got => simp
  refine ⟨hmid, ?_, ?_, ⟨rfl, rfl⟩, ?_, ?_⟩
  · intro hno
    unfold serve_with_auth
    cases hgate : auth_middleware (some secret) header with
    | false => rfl
    | true => exact absurd (hmid.mp hgate) hno
  · intro hyes
    unfold serve_with_auth
    rw [hmid.mpr hyes]
    rfl
  · constructor
    · unfold auth_middleware
      simp [String.isEmpty]
    · unfold serve_with_auth auth_middleware
      simp [String.isEmpty]
  · refine ⟨rfl, rfl, ?_⟩
    simp [api_key_from_env, Option.filter, hempty]

/-- Witness for C9 with the secret `"s3cret"`: the matching header passes, a
wrong header and a missing header are rejected, the open configurations pass
everything, and the env filter drops an empty configured key. -/
theorem auth_gate_correct_witness :
    ("s3cret" : String) ≠ "" ∧
    (auth_middleware (some "s3cret") (some "s3cret") = true ↔
      (some "s3cret" : Option String) = some "s3cret") ∧
    serve_with_auth (some "s3cret") (some "wrong") 200 403 = 403 ∧
    serve_with_auth (some "s3cret") none 200 403 = 403 ∧
    serve_with_auth (some "s3cret") (some "s3cret") 200 403 = 200 ∧
    serve_with_auth none (some "anything") 200 403 = 200 ∧
    serve_with_auth (some "") none 200 403 = 200 ∧
    api_key_from_env (some "") = none := by
  have h1 := auth_gate_correct "s3cret" (by decide) (some "s3cret") 200 403
  have h2 := auth_gate_correct "s3cret" (by decide) (some "wrong") 200 403
  have h3 := auth_gate_correct "s3cret" (by decide) (none : Option String) 200 403
  have h4 := auth_gate_correct "s3cret" (by decide) (some "anything") 200 403
  exact ⟨by decide, h1.1, h2.2.1 (by decide), h3.2.1 (by decide),
    h1.2.2.1 rfl, h4.2.2.2.1.2, h3.2.2.2.2.1.2, h1.2.2.2.2.2.1⟩

/-! ### C10 — uploads create buckets implicitly, without validation -/

/-- C10: an upload to any bucket name — including names `create_bucket` would
reject as invalid — succeeds on a filesystem where that bucket was never
created: the handler unconditionally ensures the directory (no `NotFound`, no
`InvalidInput`), the bucket then exists, and the object is stored in it. -/
theorem upload_creates_bucket_implicitly (st : AppState) (env : Env) (fs : FS)
    (r : Redis) (bucket name : String) (c : List Nat) (ts rnd : Nat)
    (habsent : fs.dirExists bucket = false) :
    (upload_file st env fs r bucket [⟨some "file", some name, .ok c⟩] ts rnd
        true true).1 = .success (uploadKey ts rnd name) name c.length bucket ∧
    ((upload_file st env fs r bucket [⟨some "file", some name, .ok c⟩] ts rnd
        true true).2.1).dirExists bucket = true ∧
    ((upload_file st env fs r bucket [⟨some "file", some name, .ok c⟩] ts rnd
        true true).2.1).readFile bucket (uploadKey ts rnd name) = some c := by
  refine ⟨upload_single_resp st env fs r bucket name c ts rnd, ?_, ?_⟩
  · rw [upload_single_fs]
    unfold FS.dirExists at habsent
    have hmem : bucket ∉ fs.buckets := by simpa using habsent
    simp [FS.writeFile, FS.createDirAll, FS.dirExists, hmem]
  · rw [upload_single_fs]
    exact readFile_writeFile_same _ bucket (uploadKey ts rnd name) c

/-- Witness for C10: the name `"My-Bucket-"` (uppercase and trailing hyphen)
is one `create_bucket` rejects, yet an upload to it on an empty store
succeeds and creates the bucket. -/
theorem upload_creates_bucket_implicitly_witness :
    bucketNameOk "My-Bucket-" = false ∧
    (create_bucket stW ⟨[], []⟩ "My-Bucket-" true).1 = .invalidName ∧
    FS.dirExists ⟨[], []⟩ "My-Bucket-" = false ∧
    (upload_file stW envW ⟨[], []⟩ rW "My-Bucket-" [fieldA] 1 2 true true).1 =
      .success "1-2-a.txt" "a.txt" 1 "My-Bucket-" ∧
    ((upload_file stW envW ⟨[], []⟩ rW "My-Bucket-" [fieldA] 1 2 true
        true).2.1).dirExists "My-Bucket-" = true := by
  have h := upload_creates_bucket_implicitly stW envW ⟨[], []⟩ rW "My-Bucket-"
    "a.txt" [1] 1 2 (by decide)
  exact ⟨by decide, by decide, by decide, h.1.trans (by decide), h.2.1⟩

end Fileio
